import Mathlib

/-
Verification of the CSV catalog-comparison pipeline.

The repository reconciles an inventory feed (a column of "ARTIST - TITLE"
strings) with a storefront catalog feed ((id, name) pairs).  The core is
compare.py, which normalizes a free-text key on each side
(str(x).strip().lower()) and computes the list of catalog ids whose
normalized name is absent from the set of normalized inventory keys, with
three interchangeable strategies (row-wise loop, vectorized mask, chunked).

Shallow embedding conventions:
  * A Python string is its sequence of character code points (`Text`).
  * A CSV cell is `Option Text`; `astype(str)` / `str(...)` turns a missing
    value (pandas NaN) into the text "nan".
  * `str.strip` / `str.lower` are modelled on their ASCII behavior
    (whitespace class {space, tab, LF, VT, FF, CR}; case map A-Z to a-z);
    code points outside that range are untouched, which matches Python on
    all ASCII data.
  * The Python `set(...)` built from the inventory column is modelled as a
    duplicate-free list with the same membership (`List.dedup`).
  * pandas raising `KeyError` on a missing column is modelled by `Except`
    wrappers that consult column-presence flags exactly where the source
    indexes a column.
-/

/-- A Python string, modelled as its sequence of character code points. -/
abbrev Text : Type := List Nat

/-- Whitespace test of Python str.strip, on the ASCII whitespace
characters: space (32), tab (9), LF (10), VT (11), FF (12), CR (13). -/
def isSpace (c : Nat) : Bool :=
  decide (c = 32 ∨ c = 9 ∨ c = 10 ∨ c = 11 ∨ c = 12 ∨ c = 13)

/-- Python str.lower on a single code point (ASCII case map). -/
def lowerChar (c : Nat) : Nat :=
  if 65 ≤ c ∧ c ≤ 90 then c + 32 else c

/-- Python s.lower(): lower-case every character. -/
def pyLower (t : Text) : Text := t.map lowerChar

/-- Python s.strip(): remove leading and trailing whitespace. -/
def pyStrip (t : Text) : Text :=
  ((t.dropWhile isSpace).reverse.dropWhile isSpace).reverse

/-- The normalization routine of compare.py applied to a value that is
already a string: .strip().lower() (strip first, then lower, as in
str(x).strip().lower() and .str.strip().str.lower()). -/
def pyNormalize (t : Text) : Text := pyLower (pyStrip t)

/-- The text "nan": what str() produces on a pandas missing value (NaN),
hence the stable placeholder every absent CSV cell is coerced to. -/
def nanTxt : Text := [110, 97, 110]

/-- astype(str) / str(...) on a CSV cell: a present cell keeps its text, a
missing cell becomes the text "nan". -/
def cellToStr : Option Text → Text
  | some t => t
  | none => nanTxt

/-- Normalization of one CSV cell: str(x).strip().lower(). -/
def normalizeCell (v : Option Text) : Text := pyNormalize (cellToStr v)

/-- One row of the catalog CSV (columns id and name of csv2). -/
structure CatalogRow where
  id : Int
  name : Option Text
deriving DecidableEq

/-- compare.py, compare_csv_texts_efficient (lines 4-47): build the set of
normalized ARTIST_TITLE values, then loop over catalog rows with iterrows,
appending row['id'] whenever the normalized name is not in the set. -/
def compare_csv_texts_efficient (inv : List (Option Text)) (cat : List CatalogRow) : List Int :=
  let existing_artist_titles : List Text := (inv.map normalizeCell).dedup
  cat.foldl
    (fun unique_ids row =>
      if normalizeCell row.name ∉ existing_artist_titles then unique_ids ++ [row.id]
      else unique_ids)
    []

/-- compare.py, compare_csv_texts_vectorized (lines 50-77): build both
normalized columns, compute the boolean mask ~name_clean.isin(column), and
select the id column under the mask. -/
def compare_csv_texts_vectorized (inv : List (Option Text)) (cat : List CatalogRow) : List Int :=
  let artist_title_clean : List Text := inv.map normalizeCell
  let name_clean : List Text := cat.map (fun row => normalizeCell row.name)
  let mask : List Bool := name_clean.map (fun nm => decide (nm ∉ artist_title_clean))
  ((cat.zip mask).filter (fun p => p.2)).map (fun p => p.1.id)

/-- Body of the per-chunk work of compare_csv_texts_chunked (lines 93-99):
normalize the chunk's name column, mask by ~isin(existing_artist_titles),
select the masked ids. -/
def chunkStep (existing_artist_titles : List Text) (chunk : List CatalogRow) : List Int :=
  let name_clean : List Text := chunk.map (fun row => normalizeCell row.name)
  let mask : List Bool := name_clean.map (fun nm => decide (nm ∉ existing_artist_titles))
  ((chunk.zip mask).filter (fun p => p.2)).map (fun p => p.1.id)

/-- The chunk loop of compare_csv_texts_chunked: repeatedly split off the
next chunk_size rows and process them.  The extra fuel argument bounds the
number of chunks; every chunk consumes at least one row, so fuel equal to
the row count is always enough (compare_csv_texts_chunked passes that). -/
def chunkedLoop : Nat → List Text → Nat → List CatalogRow → List Int
  | 0, _, _, _ => []
  | _, _, _, [] => []
  | fuel + 1, existing, chunk_size, row :: rest =>
      chunkStep existing (row :: rest.take (chunk_size - 1)) ++
        chunkedLoop fuel existing chunk_size (rest.drop (chunk_size - 1))

/-- compare.py, compare_csv_texts_chunked (lines 80-101): build the
inventory set fully, then read the catalog in chunks of chunk_size rows,
extending unique_ids with each chunk's selection. -/
def compare_csv_texts_chunked (inv : List (Option Text)) (cat : List CatalogRow) (chunk_size : Nat) : List Int :=
  let existing_artist_titles : List Text := (inv.map normalizeCell).dedup
  chunkedLoop cat.length existing_artist_titles chunk_size cat

/-- The set of normalized inventory keys, as the spec describes it. -/
def inventoryKeySet (inv : List (Option Text)) : Finset Text :=
  (inv.map normalizeCell).toFinset

/-- Specification reference function, written from the spec's words: the
ordered sequence of identifiers of the catalog records whose normalized
name is not in the inventory key set, one occurrence per catalog
occurrence (spec section 3, ComparisonResult; section 8, result subset
property). -/
def specUnmatchedIds (inv : List (Option Text)) (cat : List CatalogRow) : List Int :=
  (cat.filter (fun row => decide (normalizeCell row.name ∉ inventoryKeySet inv))).map
    (fun row => row.id)

/-- Membership test a comparison strategy applies to one catalog row, given
the materialized key list. -/
def keepRow (keys : List Text) (row : CatalogRow) : Bool :=
  decide (normalizeCell row.name ∉ keys)

/-- Filter the catalog by keepRow and project the ids. -/
def selectIds (keys : List Text) (cat : List CatalogRow) : List Int :=
  (cat.filter (keepRow keys)).map (fun row => row.id)

/-- The spec's MalformedInputError: a required column is missing. -/
inductive CompareError where
  | malformedInput
deriving DecidableEq

/-- The inventory CSV handed to compare: whether the ARTIST_TITLE column
exists, and the cells of that column. -/
structure InventoryCSV where
  hasArtistTitleCol : Bool
  rows : List (Option Text)

/-- The catalog CSV handed to compare: whether the id and name columns
exist, and the rows. -/
structure CatalogCSV where
  hasIdCol : Bool
  hasNameCol : Bool
  rows : List CatalogRow

/-- The iterrows loop of compare_csv_texts_efficient with column access
checked where the source indexes a column: row['name'] on every row
(line 35), row['id'] only on an appended row (line 39). -/
def effCheckedLoop (hasNameCol hasIdCol : Bool) (existing : List Text) :
    List Int → List CatalogRow → Except CompareError (List Int)
  | unique_ids, [] => Except.ok unique_ids
  | unique_ids, row :: rest =>
      if hasNameCol = false then Except.error CompareError.malformedInput
      else if normalizeCell row.name ∉ existing then
        if hasIdCol = false then Except.error CompareError.malformedInput
        else effCheckedLoop hasNameCol hasIdCol existing (unique_ids ++ [row.id]) rest
      else effCheckedLoop hasNameCol hasIdCol existing unique_ids rest

/-- compare_csv_texts_efficient with pandas column errors made explicit:
df1['ARTIST_TITLE'] is indexed unconditionally (line 21), the catalog
columns only inside the row loop. -/
def compare_efficient_checked (c1 : InventoryCSV) (c2 : CatalogCSV) : Except CompareError (List Int) :=
  if c1.hasArtistTitleCol = false then Except.error CompareError.malformedInput
  else effCheckedLoop c2.hasNameCol c2.hasIdCol ((c1.rows.map normalizeCell).dedup) [] c2.rows

/-- compare_csv_texts_vectorized with pandas column errors made explicit:
df1['ARTIST_TITLE'] (line 63), df2['name'] (line 64) and df2.loc[mask,'id']
(line 70) are all indexed unconditionally, in that order. -/
def compare_vectorized_checked (c1 : InventoryCSV) (c2 : CatalogCSV) : Except CompareError (List Int) :=
  if c1.hasArtistTitleCol = false then Except.error CompareError.malformedInput
  else if c2.hasNameCol = false then Except.error CompareError.malformedInput
  else if c2.hasIdCol = false then Except.error CompareError.malformedInput
  else Except.ok (compare_csv_texts_vectorized c1.rows c2.rows)

/-- Whether an Except value is a success. -/
def exceptOk {e a : Type} : Except e a → Bool
  | Except.ok _ => true
  | Except.error _ => false

/-- One row of the inventory spreadsheet (columns ARTIST and TITLE). -/
structure ExcelRow where
  artist : Option Text
  title : Option Text

/-- The text " - ", the separator of exl_file.py line 20. -/
def sepTxt : Text := [32, 45, 32]

/-- exl_file.py line 20: ARTIST_TITLE = astype(str) of ARTIST ++ " - " ++
astype(str) of TITLE. -/
def artistTitleKey (r : ExcelRow) : Text :=
  cellToStr r.artist ++ sepTxt ++ cellToStr r.title

/-- pandas drop_duplicates: keep the first occurrence of each value, in
order; seen accumulates the values already kept. -/
def dropDupsSeen (seen : List Text) : List Text → List Text
  | [] => []
  | x :: xs => if x ∈ seen then dropDupsSeen seen xs else x :: dropDupsSeen (x :: seen) xs

/-- df.drop_duplicates(subset=["ARTIST_TITLE"]) on the combined column. -/
def drop_duplicates (l : List Text) : List Text := dropDupsSeen [] l

/-- exl_file.py, artist_title_to_csv (lines 7-33), data part: the
ARTIST_TITLE column it writes — combine the two columns row by row, then
drop duplicates on the combined key. -/
def artist_title_to_csv (rows : List ExcelRow) : List Text :=
  drop_duplicates (rows.map artistTitleKey)

/-- Python s.replace("&amp;", "&"): scan left to right; on a match of the
five code points of "&amp;" (38 97 109 112 59) emit "&" (38) and skip the
match, otherwise emit the character and advance by one. -/
def decodeAmp : Text → Text
  | 38 :: 97 :: 109 :: 112 :: 59 :: rest => 38 :: decodeAmp rest
  | c :: rest => c :: decodeAmp rest
  | [] => []

/-- Whether the text contains the five code points of "&amp;" as a
contiguous subsequence. -/
def hasEnt : Text → Bool
  | 38 :: 97 :: 109 :: 112 :: 59 :: _ => true
  | _ :: rest => hasEnt rest
  | [] => false

/-- One item of the catalog API response (fields "id" and "name"). -/
structure ApiItem where
  id : Int
  name : Text

/-- Woocommerce.py, save_id_name_to_csv (lines 14-17), data part: the
(id, name) rows it materializes — every name has "&amp;" replaced by "&"
before the pair is formed. -/
def save_id_name_to_csv (data : List ApiItem) : List CatalogRow :=
  data.map (fun item => { id := item.id, name := some (decodeAmp item.name) })

/-- The text "x" (code point 120). -/
def xT : Text := [120]

/-- The text "y" (code point 121). -/
def yT : Text := [121]

/-- Scenario inventory ["x"]. -/
def invX : List (Option Text) := [some xT]

/-- Scenario catalog [(1,"x"), (2,"y"), (3,"x")]. -/
def catXYX : List CatalogRow := [⟨1, some xT⟩, ⟨2, some yT⟩, ⟨3, some xT⟩]

/-- The text "A &amp; B". -/
def ampName : Text := [65, 32, 38, 97, 109, 112, 59, 32, 66]

/-- The text "a & b". -/
def ampDecoded : Text := [97, 32, 38, 32, 98]

/-! ## Normalization lemmas -/

/-- Lower-casing a character does not change whether it is whitespace. -/
theorem isSpace_lowerChar (c : Nat) : isSpace (lowerChar c) = isSpace c := by
  unfold lowerChar isSpace
  split
  · next h => exact decide_eq_decide.mpr (by omega)
  · rfl

/-- The ASCII case map is idempotent. -/
theorem lowerChar_lowerChar (c : Nat) : lowerChar (lowerChar c) = lowerChar c := by
  unfold lowerChar
  split
  · next h => rw [if_neg (by omega)]
  · rfl

/-- dropWhile commutes with lower-casing, because lower-casing preserves
the whitespace class. -/
theorem dropWhile_isSpace_map_lowerChar (l : Text) :
    (l.map lowerChar).dropWhile isSpace = (l.dropWhile isSpace).map lowerChar := by
  induction l with
  | nil => rfl
  | cons c cs ih =>
      by_cases h : isSpace c
      · simp [List.dropWhile_cons, isSpace_lowerChar, h, ih]
      · simp [List.dropWhile_cons, isSpace_lowerChar, h]

/-- dropWhile is idempotent. -/
theorem dropWhile_isSpace_idem (l : Text) :
    (l.dropWhile isSpace).dropWhile isSpace = l.dropWhile isSpace := by
  induction l with
  | nil => rfl
  | cons c cs ih =>
      by_cases h : isSpace c
      · simp [List.dropWhile_cons, h, ih]
      · simp [List.dropWhile_cons, h]

/-- dropWhile never removes a non-whitespace final character: the result of
dropping leading whitespace from u ++ [a] still ends in a. -/
theorem dropWhile_ends (a : Nat) (ha : isSpace a = false) :
    ∀ u : Text, ∃ w : Text, (u ++ [a]).dropWhile isSpace = w ++ [a] := by
  intro u
  induction u with
  | nil => exact ⟨[], by simp [List.dropWhile_cons, ha]⟩
  | cons b bs ih =>
      by_cases hb : isSpace b
      · obtain ⟨w, hw⟩ := ih
        exact ⟨w, by simp [List.dropWhile_cons, hb, hw]⟩
      · exact ⟨b :: (bs ++ [a]).dropLast, by simp [List.dropWhile_cons, hb]⟩

/-- Stripping commutes with lower-casing. -/
theorem pyStrip_pyLower (l : Text) : pyStrip (pyLower l) = pyLower (pyStrip l) := by
  unfold pyStrip pyLower
  rw [dropWhile_isSpace_map_lowerChar, ← List.map_reverse, dropWhile_isSpace_map_lowerChar,
    ← List.map_reverse]

/-- Key step for strip idempotence: if l has no leading whitespace, then
removing trailing whitespace from l leaves no leading whitespace either. -/
theorem dropWhile_reverse_dropWhile (l : Text) (hl : l.dropWhile isSpace = l) :
    ((l.reverse.dropWhile isSpace).reverse).dropWhile isSpace
      = (l.reverse.dropWhile isSpace).reverse := by
  cases l with
  | nil => rfl
  | cons a as =>
      have ha : isSpace a = false := by
        by_contra h
        rw [Bool.not_eq_false] at h
        rw [List.dropWhile_cons_of_pos h] at hl
        have := congrArg List.length hl
        have hle : (as.dropWhile isSpace).length ≤ as.length :=
          List.Sublist.length_le (List.dropWhile_sublist isSpace)
        simp at this
        omega
      obtain ⟨w, hw⟩ := dropWhile_ends a ha as.reverse
      rw [List.reverse_cons, hw, List.reverse_append]
      simp [List.dropWhile_cons, ha]

/-- Stripping is idempotent. -/
theorem pyStrip_idem (l : Text) : pyStrip (pyStrip l) = pyStrip l := by
  have h1 : (pyStrip l).dropWhile isSpace = pyStrip l :=
    dropWhile_reverse_dropWhile (l.dropWhile isSpace) (dropWhile_isSpace_idem l)
  have h2 : (pyStrip l).reverse = (l.dropWhile isSpace).reverse.dropWhile isSpace := by
    unfold pyStrip
    rw [List.reverse_reverse]
  calc pyStrip (pyStrip l)
      = (((pyStrip l).dropWhile isSpace).reverse.dropWhile isSpace).reverse := rfl
    _ = ((pyStrip l).reverse.dropWhile isSpace).reverse := by rw [h1]
    _ = pyStrip l := by
          rw [h2, dropWhile_isSpace_idem]
          unfold pyStrip
          rfl

/-- Lower-casing is idempotent. -/
theorem pyLower_idem (l : Text) : pyLower (pyLower l) = pyLower l := by
  unfold pyLower
  rw [List.map_map]
  exact List.map_congr_left (fun c _ => lowerChar_lowerChar c)

/-- Idempotence of the full normalization routine. -/
theorem pyNormalize_idem (t : Text) : pyNormalize (pyNormalize t) = pyNormalize t := by
  unfold pyNormalize
  rw [pyStrip_pyLower, pyStrip_idem, pyLower_idem]

/-! ## Characterization of the three strategies -/

/-- The zip/mask/select pattern of the vectorized code equals filtering by
the mask function and projecting ids. -/
theorem zipMask_gen (f : CatalogRow → Bool) (cat : List CatalogRow) :
    ((cat.zip (cat.map f)).filter (fun p => p.2)).map (fun p => p.1.id)
      = (cat.filter f).map (fun row => row.id) := by
  induction cat with
  | nil => rfl
  | cons row rest ih =>
      cases hf : f row
      · simp [List.filter_cons, hf, ih]
      · simp [List.filter_cons, hf, ih]

/-- The per-chunk work is the filter/project of the chunk. -/
theorem chunkStep_eq (keys : List Text) (chunk : List CatalogRow) :
    chunkStep keys chunk = selectIds keys chunk := by
  show ((chunk.zip ((chunk.map (fun row => normalizeCell row.name)).map
      (fun nm => decide (nm ∉ keys)))).filter (fun p => p.2)).map (fun p => p.1.id)
    = selectIds keys chunk
  rw [List.map_map]
  exact zipMask_gen (keepRow keys) chunk

/-- The vectorized strategy is the filter/project over the raw (undeduped)
normalized inventory column. -/
theorem vectorized_eq (inv : List (Option Text)) (cat : List CatalogRow) :
    compare_csv_texts_vectorized inv cat = selectIds (inv.map normalizeCell) cat := by
  show ((cat.zip ((cat.map (fun row => normalizeCell row.name)).map
      (fun nm => decide (nm ∉ inv.map normalizeCell)))).filter (fun p => p.2)).map
      (fun p => p.1.id)
    = selectIds (inv.map normalizeCell) cat
  rw [List.map_map]
  exact zipMask_gen (keepRow (inv.map normalizeCell)) cat

/-- The row loop of the efficient strategy, with its accumulator made
explicit. -/
theorem efficient_foldl (keys : List Text) (cat : List CatalogRow) :
    ∀ acc : List Int,
      cat.foldl
        (fun unique_ids row =>
          if normalizeCell row.name ∉ keys then unique_ids ++ [row.id] else unique_ids)
        acc = acc ++ selectIds keys cat := by
  induction cat with
  | nil => intro acc; simp [selectIds]
  | cons row rest ih =>
      intro acc
      rw [List.foldl_cons]
      by_cases h : normalizeCell row.name ∉ keys
      · rw [if_pos h, ih]
        have hk : keepRow keys row = true := decide_eq_true h
        simp [selectIds, List.filter_cons, hk]
      · rw [if_neg h, ih]
        have hk : keepRow keys row = false := decide_eq_false h
        simp [selectIds, List.filter_cons, hk]

/-- The efficient strategy is the filter/project over the deduplicated
normalized inventory column (the Python set of line 21). -/
theorem efficient_eq (inv : List (Option Text)) (cat : List CatalogRow) :
    compare_csv_texts_efficient inv cat = selectIds ((inv.map normalizeCell).dedup) cat := by
  unfold compare_csv_texts_efficient
  rw [efficient_foldl]
  rfl

/-- selectIds distributes over appending catalogs. -/
theorem selectIds_append (keys : List Text) (l1 l2 : List CatalogRow) :
    selectIds keys (l1 ++ l2) = selectIds keys l1 ++ selectIds keys l2 := by
  simp [selectIds, List.filter_append]

/-- selectIds only depends on membership in the key list. -/
theorem selectIds_congr (keys1 keys2 : List Text)
    (h : ∀ k : Text, k ∈ keys1 ↔ k ∈ keys2) (cat : List CatalogRow) :
    selectIds keys1 cat = selectIds keys2 cat := by
  unfold selectIds
  rw [List.filter_congr]
  intro row _
  unfold keepRow
  exact decide_eq_decide.mpr (not_congr (h (normalizeCell row.name)))

/-- The chunk loop, with enough fuel, is the filter/project of the whole
catalog, whatever the chunk size. -/
theorem chunkedLoop_eq (keys : List Text) (chunk_size : Nat) :
    ∀ (fuel : Nat) (cat : List CatalogRow), cat.length ≤ fuel →
      chunkedLoop fuel keys chunk_size cat = selectIds keys cat := by
  intro fuel
  induction fuel with
  | zero =>
      intro cat h
      rw [List.length_eq_zero.mp (Nat.le_zero.mp h)]
      rfl
  | succ fuel ih =>
      intro cat h
      cases cat with
      | nil => rfl
      | cons row rest =>
          simp only [chunkedLoop]
          rw [chunkStep_eq, ih (rest.drop (chunk_size - 1)) (by simp at h ⊢; omega)]
          rw [← selectIds_append]
          have hsplit : (row :: rest.take (chunk_size - 1)) ++ rest.drop (chunk_size - 1)
              = row :: rest := by
            rw [List.cons_append, List.take_append_drop]
          rw [hsplit]

/-- The chunked strategy is the filter/project over the deduplicated
normalized inventory column, whatever the chunk size. -/
theorem chunked_eq (inv : List (Option Text)) (cat : List CatalogRow) (chunk_size : Nat) :
    compare_csv_texts_chunked inv cat chunk_size
      = selectIds ((inv.map normalizeCell).dedup) cat := by
  unfold compare_csv_texts_chunked
  exact chunkedLoop_eq _ _ cat.length cat (Nat.le_refl _)

/-- Deduplicating the key list does not change the selection. -/
theorem selectIds_dedup (inv : List (Option Text)) (cat : List CatalogRow) :
    selectIds ((inv.map normalizeCell).dedup) cat = selectIds (inv.map normalizeCell) cat :=
  selectIds_congr _ _ (fun _ => List.mem_dedup) cat

/-- The spec's reference result is the filter/project over the raw
normalized inventory column. -/
theorem specUnmatchedIds_eq (inv : List (Option Text)) (cat : List CatalogRow) :
    specUnmatchedIds inv cat = selectIds (inv.map normalizeCell) cat := by
  unfold specUnmatchedIds selectIds
  rw [List.filter_congr]
  intro row _
  unfold keepRow inventoryKeySet
  exact decide_eq_decide.mpr (not_congr List.mem_toFinset)

/-! ## Helper lemmas for the checked operations, the dedup of the inventory
collaborator, and the ampersand decoding -/

/-- With both catalog columns present, the checked row loop never fails and
computes the plain row loop. -/
theorem effCheckedLoop_all_true (keys : List Text) (cat : List CatalogRow) :
    ∀ acc : List Int,
      effCheckedLoop true true keys acc cat
        = Except.ok (cat.foldl
            (fun unique_ids row =>
              if normalizeCell row.name ∉ keys then unique_ids ++ [row.id] else unique_ids)
            acc) := by
  induction cat with
  | nil => intro acc; rfl
  | cons row rest ih =>
      intro acc
      by_cases h : normalizeCell row.name ∉ keys
      · simp only [effCheckedLoop, if_neg (by simp : ¬ (true = false)), if_pos h,
          List.foldl_cons, ih]
      · simp only [effCheckedLoop, if_neg (by simp : ¬ (true = false)), if_neg h,
          List.foldl_cons, ih]

/-- dropDupsSeen produces a duplicate-free list, none of whose elements was
already seen. -/
theorem dropDupsSeen_spec (l : List Text) :
    ∀ seen : List Text,
      (dropDupsSeen seen l).Nodup ∧ ∀ x ∈ dropDupsSeen seen l, x ∉ seen := by
  induction l with
  | nil => intro seen; simp [dropDupsSeen]
  | cons x xs ih =>
      intro seen
      by_cases h : x ∈ seen
      · simp only [dropDupsSeen, if_pos h]
        exact ih seen
      · simp only [dropDupsSeen, if_neg h]
        refine ⟨List.nodup_cons.mpr ⟨fun hx => ?_, (ih (x :: seen)).1⟩, ?_⟩
        · exact (ih (x :: seen)).2 x hx (List.mem_cons_self x seen)
        · intro y hy
          rcases List.mem_cons.mp hy with rfl | hy'
          · exact h
          · intro hys
            exact (ih (x :: seen)).2 y hy' (List.mem_cons_of_mem x hys)

/-- hasEnt steps over a head that opens no "&amp;" match. -/
theorem hasEnt_cons_ne (c : Nat) (rest : Text)
    (hne : ∀ r1 : Text, c = 38 → rest = 97 :: 109 :: 112 :: 59 :: r1 → False) :
    hasEnt (c :: rest) = hasEnt rest := by
  rw [hasEnt.eq_def]
  split
  · next r1 heq =>
      rw [List.cons.injEq] at heq
      exact absurd heq (by intro hp; exact hne r1 hp.1 hp.2)
  · next c2 r2 hx heq =>
      rw [List.cons.injEq] at heq
      rw [heq.2]
  · simp_all

/-- decodeAmp copies a head that opens no "&amp;" match. -/
theorem decodeAmp_cons_ne (c : Nat) (rest : Text)
    (hne : ∀ r1 : Text, c = 38 → rest = 97 :: 109 :: 112 :: 59 :: r1 → False) :
    decodeAmp (c :: rest) = c :: decodeAmp rest := by
  rw [decodeAmp.eq_def]
  split
  · next r1 heq =>
      rw [List.cons.injEq] at heq
      exact absurd heq (by intro hp; exact hne r1 hp.1 hp.2)
  · next c2 r2 hx heq =>
      rw [List.cons.injEq] at heq
      rw [heq.1, heq.2]
  · simp_all

/-- A text with no occurrence of "&amp;" is unchanged by the decoding. -/
theorem decodeAmp_of_no_ent (t : Text) (h : hasEnt t = false) : decodeAmp t = t := by
  induction t using decodeAmp.induct with
  | case1 rest ih => simp [hasEnt] at h
  | case2 c rest hne ih =>
      rw [hasEnt_cons_ne c rest hne] at h
      rw [decodeAmp_cons_ne c rest hne, ih h]
  | case3 => rfl

/-! ## Claim theorems -/

/-- C1: for every inventory sequence and every catalog sequence, the
row-wise and the vectorized comparison produce exactly the identifiers of
the catalog records whose normalized name is absent from the set of
normalized inventory keys, one occurrence per occurrence in the catalog
source, in catalog order and without deduplication (both equal the spec's
reference result). -/
theorem claim_C1_result_exact (inv : List (Option Text)) (cat : List CatalogRow) :
    compare_csv_texts_efficient inv cat = specUnmatchedIds inv cat
      ∧ compare_csv_texts_vectorized inv cat = specUnmatchedIds inv cat := by
  constructor
  · rw [efficient_eq, selectIds_dedup, specUnmatchedIds_eq]
  · rw [vectorized_eq, specUnmatchedIds_eq]

/-- C2: on identical inputs the row-wise, vectorized and chunked strategies
produce identical result sequences, in the same order, for every chunk
size pandas accepts (at least 1). -/
theorem claim_C2_strategy_equiv (inv : List (Option Text)) (cat : List CatalogRow)
    (chunk_size : Nat) (_hn : 1 ≤ chunk_size) :
    compare_csv_texts_efficient inv cat = compare_csv_texts_vectorized inv cat
      ∧ compare_csv_texts_vectorized inv cat = compare_csv_texts_chunked inv cat chunk_size := by
  constructor
  · rw [efficient_eq, selectIds_dedup, vectorized_eq]
  · rw [vectorized_eq, chunked_eq, selectIds_dedup]

/-- Witness for C2 at a concrete input. -/
theorem claim_C2_witness :
    compare_csv_texts_efficient invX catXYX = compare_csv_texts_vectorized invX catXYX
      ∧ compare_csv_texts_vectorized invX catXYX = compare_csv_texts_chunked invX catXYX 2 :=
  claim_C2_strategy_equiv invX catXYX 2 (by decide)

/-- C4: the normalization of a cell is total by construction, a missing or
null value is coerced to the stable placeholder text "nan" (the textual
form of the absent value, the spec's "none or equivalent"), and any two
missing values normalize to the same key. -/
theorem claim_C4_placeholder :
    normalizeCell none = nanTxt
      ∧ ∀ v w : Option Text, v = none → w = none → normalizeCell v = normalizeCell w := by
  constructor
  · rfl
  · intro v w hv hw
    rw [hv, hw]

/-- Witness for C4 at the concrete missing value. -/
theorem claim_C4_witness : normalizeCell none = normalizeCell none :=
  claim_C4_placeholder.2 none none rfl rfl

/-- C5: the result preserves the relative order of emitted entries as they
appear in the catalog source: the row-wise result and the chunked result
are (order-preserving) sublists of the catalog's id column. -/
theorem claim_C5_order (inv : List (Option Text)) (cat : List CatalogRow)
    (chunk_size : Nat) (_hn : 1 ≤ chunk_size) :
    List.Sublist (compare_csv_texts_efficient inv cat) (cat.map (fun row => row.id))
      ∧ List.Sublist (compare_csv_texts_chunked inv cat chunk_size)
          (cat.map (fun row => row.id)) := by
  have h : List.Sublist (selectIds ((inv.map normalizeCell).dedup) cat)
      (cat.map (fun row => row.id)) := by
    unfold selectIds
    exact List.Sublist.map _ (List.filter_sublist cat)
  exact ⟨by rw [efficient_eq]; exact h, by rw [chunked_eq]; exact h⟩

/-- Witness for C5 at a concrete input. -/
theorem claim_C5_witness :
    List.Sublist (compare_csv_texts_efficient invX catXYX) (catXYX.map (fun row => row.id))
      ∧ List.Sublist (compare_csv_texts_chunked invX catXYX 1)
          (catXYX.map (fun row => row.id)) :=
  claim_C5_order invX catXYX 1 (by decide)

/-- C6: normalization is idempotent, both as the raw text routine
strip-then-lower and at the cell level. -/
theorem claim_C6_idempotent :
    (∀ t : Text, pyNormalize (pyNormalize t) = pyNormalize t)
      ∧ ∀ v : Option Text, normalizeCell (some (normalizeCell v)) = normalizeCell v := by
  refine ⟨pyNormalize_idem, fun v => ?_⟩
  unfold normalizeCell cellToStr
  exact pyNormalize_idem (cellToStr v)

/-- C3, counterexample: the claim says the compare operation fails with
MalformedInputError if and only if a required column is absent; but the
row-wise strategy indexes the catalog columns only inside the row loop, so
on a catalog CSV with a header lacking both id and name and zero data rows
it succeeds with the empty result although required fields are absent. -/
theorem claim_C3_counterexample :
    (CatalogCSV.mk false false []).hasNameCol = false
      ∧ (CatalogCSV.mk false false []).hasIdCol = false
      ∧ compare_efficient_checked (InventoryCSV.mk true [])
          (CatalogCSV.mk false false []) = Except.ok [] :=
  ⟨rfl, rfl, rfl⟩

/-- C3, amended: the vectorized compare fails with MalformedInputError
exactly when a required column (inventory ARTIST_TITLE, catalog name,
catalog id) is absent; whenever all three columns are present neither the
vectorized nor the row-wise compare fails (absent/null text cells go
through the Normalizer's placeholder instead of raising); the row-wise
compare, however, need not fail when a required catalog column is absent
but never accessed by its row loop. -/
theorem claim_C3_amended (c1 : InventoryCSV) (c2 : CatalogCSV) :
    (exceptOk (compare_vectorized_checked c1 c2) = true
        ↔ c1.hasArtistTitleCol = true ∧ c2.hasNameCol = true ∧ c2.hasIdCol = true)
      ∧ (c1.hasArtistTitleCol = true → c2.hasNameCol = true → c2.hasIdCol = true →
          compare_efficient_checked c1 c2
              = Except.ok (compare_csv_texts_efficient c1.rows c2.rows)
            ∧ compare_vectorized_checked c1 c2
              = Except.ok (compare_csv_texts_vectorized c1.rows c2.rows)) := by
  constructor
  · unfold compare_vectorized_checked
    rcases c1 with ⟨a, rows1⟩
    rcases c2 with ⟨i, n, rows2⟩
    cases a <;> cases i <;> cases n <;> simp [exceptOk]
  · intro ha hn hi
    constructor
    · unfold compare_efficient_checked
      rw [if_neg (by simp [ha]), hn, hi,
        effCheckedLoop_all_true]
      rfl
    · unfold compare_vectorized_checked
      rw [if_neg (by simp [ha]),
        if_neg (by simp [hn]),
        if_neg (by simp [hi])]

/-- Witness for C3's amended claim at a concrete input with all columns
present. -/
theorem claim_C3_witness :
    compare_efficient_checked (InventoryCSV.mk true invX) (CatalogCSV.mk true true catXYX)
        = Except.ok (compare_csv_texts_efficient invX catXYX)
      ∧ compare_vectorized_checked (InventoryCSV.mk true invX) (CatalogCSV.mk true true catXYX)
        = Except.ok (compare_csv_texts_vectorized invX catXYX) :=
  (claim_C3_amended (InventoryCSV.mk true invX) (CatalogCSV.mk true true catXYX)).2 rfl rfl rfl

/-- C7: the chunked strategy's result is independent of the chunk size (for
every chunk size pandas accepts, at least 1), and on the spec's scenario 4
(catalog [(1,"x"),(2,"y"),(3,"x")], inventory ["x"], chunk size 1) the
result is [2]. -/
theorem claim_C7_chunk_independent (inv : List (Option Text)) (cat : List CatalogRow)
    (m n : Nat) (_hm : 1 ≤ m) (_hn : 1 ≤ n) :
    compare_csv_texts_chunked inv cat m = compare_csv_texts_chunked inv cat n
      ∧ compare_csv_texts_chunked invX catXYX 1 = [2] := by
  constructor
  · rw [chunked_eq, chunked_eq]
  · decide

/-- Witness for C7 at concrete chunk sizes 1 and 3. -/
theorem claim_C7_witness :
    compare_csv_texts_chunked invX catXYX 1 = compare_csv_texts_chunked invX catXYX 3
      ∧ compare_csv_texts_chunked invX catXYX 1 = [2] :=
  claim_C7_chunk_independent invX catXYX 1 3 (by decide) (by decide)

/-- C8: the inventory collaborator drops duplicates on the combined
"ARTIST - TITLE" key before the keys reach the Comparator; the set of
normalized inventory keys the row-wise and chunked strategies build
contains no duplicates; and the vectorized strategy computes the same
result as the row-wise one, so it depends only on that same duplicate-free
key set. -/
theorem claim_C8_no_duplicates (rows : List ExcelRow) (inv : List (Option Text))
    (cat : List CatalogRow) :
    (artist_title_to_csv rows).Nodup
      ∧ ((inv.map normalizeCell).dedup).Nodup
      ∧ compare_csv_texts_vectorized inv cat = compare_csv_texts_efficient inv cat := by
  refine ⟨(dropDupsSeen_spec (rows.map artistTitleKey) []).1, List.nodup_dedup _, ?_⟩
  rw [vectorized_eq, efficient_eq, selectIds_dedup]

/-- C9: the catalog collaborator decodes the HTML ampersand entity in the
name before the (id, name) pair is materialized: every pair carries the
decoded name, the decoding turns each occurrence of "&amp;" opened in the
original scan into "&" and leaves entity-free text unchanged, and
comparison normalizes the decoded form ("A &amp; B" is compared as
"a & b"). -/
theorem claim_C9_amp_decoded :
    (∀ data : List ApiItem,
        save_id_name_to_csv data
          = data.map (fun item => CatalogRow.mk item.id (some (decodeAmp item.name))))
      ∧ (∀ t : Text, decodeAmp (38 :: 97 :: 109 :: 112 :: 59 :: t) = 38 :: decodeAmp t)
      ∧ (∀ t : Text, hasEnt t = false → decodeAmp t = t)
      ∧ normalizeCell (some (decodeAmp ampName)) = ampDecoded := by
  refine ⟨fun data => rfl, fun t => rfl, decodeAmp_of_no_ent, ?_⟩
  decide

/-- Witness for C9 at a concrete entity-free text. -/
theorem claim_C9_witness : hasEnt yT = false ∧ decodeAmp yT = yT :=
  ⟨by decide, claim_C9_amp_decoded.2.2.1 yT (by decide)⟩

/-- C10: the comparison result depends only on the set of normalized
inventory keys, not on their order or multiplicity: two inventory
sequences with the same normalized key set give identical results under
all three strategies. -/
theorem claim_C10_set_only (inv1 inv2 : List (Option Text)) (cat : List CatalogRow)
    (chunk_size : Nat) (_hn : 1 ≤ chunk_size)
    (hkeys : inventoryKeySet inv1 = inventoryKeySet inv2) :
    compare_csv_texts_efficient inv1 cat = compare_csv_texts_efficient inv2 cat
      ∧ compare_csv_texts_vectorized inv1 cat = compare_csv_texts_vectorized inv2 cat
      ∧ compare_csv_texts_chunked inv1 cat chunk_size
          = compare_csv_texts_chunked inv2 cat chunk_size := by
  have hmem : ∀ k : Text, k ∈ inv1.map normalizeCell ↔ k ∈ inv2.map normalizeCell := by
    intro k
    rw [← List.mem_toFinset, ← List.mem_toFinset]
    unfold inventoryKeySet at hkeys
    rw [hkeys]
  have hsel : selectIds (inv1.map normalizeCell) cat = selectIds (inv2.map normalizeCell) cat :=
    selectIds_congr _ _ hmem cat
  refine ⟨?_, ?_, ?_⟩
  · rw [efficient_eq, efficient_eq, selectIds_dedup, selectIds_dedup, hsel]
  · rw [vectorized_eq, vectorized_eq, hsel]
  · rw [chunked_eq, chunked_eq, selectIds_dedup, selectIds_dedup, hsel]

/-- Witness for C10: a duplicated, reordered inventory with the same key
set gives the same results. -/
theorem claim_C10_witness :
    compare_csv_texts_efficient [some xT, some xT] catXYX
        = compare_csv_texts_efficient invX catXYX
      ∧ compare_csv_texts_vectorized [some xT, some xT] catXYX
        = compare_csv_texts_vectorized invX catXYX
      ∧ compare_csv_texts_chunked [some xT, some xT] catXYX 2
        = compare_csv_texts_chunked invX catXYX 2 :=
  claim_C10_set_only [some xT, some xT] invX catXYX 2 (by decide) (by decide)
